import Mathlib

/-!
Verification of the systemd memory controller of `crates/libcgroups`
(`src/crates/libcgroups/src/systemd/memory.rs`).

The controller reads the optional `reservation`, `limit` and `swap` fields of
the OCI `LinuxMemory` sub-spec (each a signed 64-bit integer when present),
validates them against the sentinel rules (`-1` = unlimited, `0` =
context-dependent), and inserts properties (`MemoryLow`, `MemoryMax`,
`MemorySwapMax`) into a mutable property sink (`HashMap<&str, Box<dyn RefArg>>`).
Validation failures are raised with `bail!` (anyhow) and wrapped with
`.context(...)` on the way out.

The embedding below models:
  * i64 values as `Int` (the i64 range bounds appear explicitly where the
    Rust range pattern `1..=i64::MAX` uses them);
  * `as u64` casts as reduction modulo `2^64` followed by `Int.toNat`
    (`asU64`), which is exactly the value a Rust `i64 as u64` cast produces;
  * the property sink as a partial map `String → Option Nat` (every value the
    controller stores is a `u64`), with `Props.insert` the `HashMap::insert`
    overwrite;
  * anyhow errors as an inductive `CgError`, one constructor per `bail!` site,
    carrying the formatted-in values, plus a `context` wrapper; the rendered
    message of each error is `CgError.message`;
  * the early-return control flow of `Memory::apply` as explicit sequencing
    returning the error (if any) together with the final state of the sink.
-/

/-- `i64::MAX`. -/
def I64MAX : Int := 2 ^ 63 - 1

/-- `i64::MIN`. -/
def I64MIN : Int := -(2 ^ 63)

/-- `u64::MAX`. -/
def U64MAX : Nat := 2 ^ 64 - 1

/-- A Rust `x as u64` cast applied to a (possibly wrapped) signed value:
reinterpretation modulo `2^64`. For `0 ≤ x < 2^64` this is just `x.toNat`. -/
def asU64 (x : Int) : Nat := (x % (2 : Int) ^ 64).toNat

/-- The property sink: `HashMap<&str, Box<dyn RefArg>>`, where every value the
memory controller ever stores is a `u64`. -/
abbrev Props := String → Option Nat

/-- `HashMap::insert` (overwriting). -/
def Props.insert (p : Props) (k : String) (v : Nat) : Props :=
  fun k' => if k' = k then some v else p k'

/-- The empty sink. -/
def emptyProps : Props := fun _ => none

/-- anyhow errors produced by the memory controller: one constructor per
`bail!` site, carrying the values interpolated into the format string, plus
the `.context(...)` wrapper. -/
inductive CgError where
  | invalidReservation (reservation : Int)
  | invalidLimit (limit : Int)
  | swapNotCalculable (swap : Int) (limit : Option Int)
  | context (msg : String) (inner : CgError)
deriving DecidableEq, Repr

/-- The source's `limit.map_or("none".to_owned(), |v| v.to_string())`. -/
def limitRender : Option Int → String
  | some v => toString v
  | none => "none"

/-- The rendered error message: the `bail!` format strings of the source,
with `.context` prepending its message (anyhow's `{:#}` chain rendering). -/
def CgError.message : CgError → String
  | .invalidReservation r => "invalid memory reservation value: " ++ toString r
  | .invalidLimit l => "invalid memory limit value: " ++ toString l
  | .swapNotCalculable s l =>
      "cgroup v2 swap value cannot be calculated from swap of " ++ toString s
        ++ " and limit of " ++ limitRender l
  | .context msg inner => msg ++ ": " ++ inner.message

/-- Whether an error is (or wraps) one of the controller's validation
failures — the spec's `ValidationError` taxonomy entry. -/
def CgError.isValidation : CgError → Bool
  | .invalidReservation _ => true
  | .invalidLimit _ => true
  | .swapNotCalculable _ _ => true
  | .context _ inner => inner.isValidation

/-- `oci_spec::runtime::LinuxMemory`, restricted to the three fields the
systemd memory controller reads. -/
structure LinuxMemory where
  limit : Option Int
  reservation : Option Int
  swap : Option Int
deriving DecidableEq, Repr

/-- The Rust range pattern `Some(1..=i64::MAX)` as a test on an `Option`. -/
def optIsPos64 : Option Int → Bool
  | some s => decide (1 ≤ s ∧ s ≤ I64MAX)
  | none => false

namespace Memory

/-- `Memory::apply_swap`: converts the OCI memory+swap total into the cgroup
v2 separate swap value.  The five `match` arms of the source are translated in
order; the sink is only touched on the success paths, so the state on error is
the input sink and `Except` suffices. -/
def apply_swap (swap limit : Option Int) (properties : Props) : Except CgError Props :=
  -- (Some(-1), None): memory unlimited, swap unspecified -> swap unlimited
  if limit = some (-1) ∧ swap = none then
    .ok (properties.insert "MemorySwapMax" U64MAX)
  -- (_, Some(-1)): swap unlimited regardless of the memory limit
  else if swap = some (-1) then
    .ok (properties.insert "MemorySwapMax" U64MAX)
  -- (_, Some(0)) | (None | Some(0) | Some(-1), Some(1..=i64::MAX)): bail
  else if swap = some 0 ∨
      ((limit = none ∨ limit = some 0 ∨ limit = some (-1)) ∧ optIsPos64 swap) then
    .error (CgError.swapNotCalculable (swap.getD 0) limit)
  else
    match limit, swap with
    -- (Some(l), Some(s)) if l < s: emit the delta
    | some l, some s =>
        if l < s then .ok (properties.insert "MemorySwapMax" (asU64 (s - l)))
        else .ok properties
    -- _ => Ok(())
    | _, _ => .ok properties

/-- The tail of `Memory::apply` after the `reservation` and `limit` blocks:
`Self::apply_swap(memory.swap(), memory.limit(), properties).context("could not apply swap")?`.
On failure the sink keeps whatever the earlier blocks inserted. -/
def applySwapStep (memory : LinuxMemory) (p : Props) : Option CgError × Props :=
  match apply_swap memory.swap memory.limit p with
  | .ok p3 => (none, p3)
  | .error e => (some (CgError.context "could not apply swap" e), p)

/-- The tail of `Memory::apply` after the `reservation` block: the `limit`
validation/insertion followed by the swap step.  An early `bail!` returns the
sink as it stands. -/
def applyLimitSwap (memory : LinuxMemory) (p : Props) : Option CgError × Props :=
  match memory.limit with
  | some l =>
      if 1 ≤ l ∧ l ≤ I64MAX then
        applySwapStep memory (p.insert "MemoryMax" (asU64 l))
      else (some (CgError.invalidLimit l), p)
  | none => applySwapStep memory p

/-- `Memory::apply` (the inherent method): validates `reservation` then
`limit`, inserting `MemoryLow` / `MemoryMax`, then delegates to `apply_swap`
with the `"could not apply swap"` context.  Because the sink is a `&mut`
argument in the source, an early `bail!` leaves the insertions already made;
the embedding therefore returns the error (if any) *together with* the final
sink.  The sequential early-return body is split into one definition per
statement block (`applyLimitSwap`, `applySwapStep`). -/
def apply (memory : LinuxMemory) (properties : Props) : Option CgError × Props :=
  match memory.reservation with
  | some r =>
      if 1 ≤ r ∧ r ≤ I64MAX then
        applyLimitSwap memory (properties.insert "MemoryLow" (asU64 r))
      else (some (CgError.invalidReservation r), properties)
  | none => applyLimitSwap memory properties

end Memory

/-- `ControllerOpt.resources`, restricted to the memory sub-spec. -/
structure Resources where
  memory : Option LinuxMemory
deriving DecidableEq, Repr

/-- `crate::common::ControllerOpt`. -/
structure ControllerOpt where
  resources : Resources
deriving DecidableEq, Repr

/-- The `Controller for Memory` trait impl's `apply`: dispatches to
`Memory::apply` when the memory sub-spec is present (wrapping failures with
context), and is a silent no-op otherwise.  The unused `u32` pid argument of
the trait signature is kept. -/
def MemoryController.apply (options : ControllerOpt) (_pid : Nat) (properties : Props) :
    Option CgError × Props :=
  match options.resources.memory with
  | some memory =>
      match Memory.apply memory properties with
      | (some e, p) =>
          (some (CgError.context "could not apply memory resource restrictions" e), p)
      | (none, p) => (none, p)
  | none => (none, properties)

/-! ### Characterizing lemmas for `Memory.apply_swap`, one per match arm -/

/-- Arm 1: `(Some(-1), None)`. -/
theorem apply_swap_unlimited_limit (p : Props) :
    Memory.apply_swap none (some (-1)) p = .ok (p.insert "MemorySwapMax" U64MAX) := by
  rfl

/-- Arm 2: `(_, Some(-1))`. -/
theorem apply_swap_unlimited_swap (limit : Option Int) (p : Props) :
    Memory.apply_swap (some (-1)) limit p = .ok (p.insert "MemorySwapMax" U64MAX) := by
  unfold Memory.apply_swap
  rw [if_neg, if_pos rfl]
  rintro ⟨-, h⟩
  exact Option.noConfusion h

/-- Arm 3, first alternative: `(_, Some(0))`. -/
theorem apply_swap_zero_swap (limit : Option Int) (p : Props) :
    Memory.apply_swap (some 0) limit p = .error (CgError.swapNotCalculable 0 limit) := by
  have h1 : ¬(limit = some (-1) ∧ (some 0 : Option Int) = none) := by
    rintro ⟨-, h⟩
    exact Option.noConfusion h
  have h2 : (some 0 : Option Int) ≠ some (-1) := by
    intro h
    have := Option.some.inj h
    omega
  unfold Memory.apply_swap
  rw [if_neg h1, if_neg h2, if_pos (Or.inl rfl)]
  rfl

/-- Arm 3, second alternative: `(None | Some(0) | Some(-1), Some(1..=i64::MAX))`. -/
theorem apply_swap_pos_swap_bad_limit (limit : Option Int) (s : Int) (p : Props)
    (hl : limit = none ∨ limit = some 0 ∨ limit = some (-1))
    (hs1 : 1 ≤ s) (hs2 : s ≤ I64MAX) :
    Memory.apply_swap (some s) limit p = .error (CgError.swapNotCalculable s limit) := by
  have h1 : ¬(limit = some (-1) ∧ (some s : Option Int) = none) := by
    rintro ⟨-, h⟩
    exact Option.noConfusion h
  have h2 : (some s : Option Int) ≠ some (-1) := by
    intro h
    have := Option.some.inj h
    omega
  unfold Memory.apply_swap
  rw [if_neg h1, if_neg h2, if_pos (Or.inr ⟨hl, by simp [optIsPos64, hs1, hs2]⟩)]
  rfl

/-- Arms 4/5 for two present values with a finite positive limit: the bail
arm cannot fire, so the result is the delta when `l < s` and a no-op
otherwise. -/
theorem apply_swap_finite (l s : Int) (p : Props) (hl : 1 ≤ l) (hs : s ≠ -1)
    (hs0 : s ≠ 0) :
    Memory.apply_swap (some s) (some l) p =
      if l < s then .ok (p.insert "MemorySwapMax" (asU64 (s - l))) else .ok p := by
  have h1 : ¬((some l : Option Int) = some (-1) ∧ (some s : Option Int) = none) := by
    rintro ⟨-, h⟩
    exact Option.noConfusion h
  have h2 : (some s : Option Int) ≠ some (-1) := fun h => hs (Option.some.inj h)
  have h3 : ¬((some s : Option Int) = some 0 ∨
      (((some l : Option Int) = none ∨ (some l : Option Int) = some 0 ∨
        (some l : Option Int) = some (-1)) ∧ optIsPos64 (some s))) := by
    rintro (h | ⟨h | h | h, -⟩)
    · exact hs0 (Option.some.inj h)
    · exact Option.noConfusion h
    · have := Option.some.inj h
      omega
    · have := Option.some.inj h
      omega
  unfold Memory.apply_swap
  rw [if_neg h1, if_neg h2, if_neg h3]

/-- Arm 5 when swap is absent and the limit is not `Some(-1)`: no-op. -/
theorem apply_swap_absent_swap (limit : Option Int) (p : Props)
    (h : limit ≠ some (-1)) :
    Memory.apply_swap none limit p = .ok p := by
  have h1 : ¬(limit = some (-1) ∧ (none : Option Int) = none) := by
    rintro ⟨h1, -⟩
    exact h h1
  have h2 : (none : Option Int) ≠ some (-1) := fun h => Option.noConfusion h
  have h3 : ¬((none : Option Int) = some 0 ∨
      ((limit = none ∨ limit = some 0 ∨ limit = some (-1)) ∧ optIsPos64 none)) := by
    rintro (h | ⟨-, h⟩)
    · exact Option.noConfusion h
    · simp [optIsPos64] at h
  unfold Memory.apply_swap
  rw [if_neg h1, if_neg h2, if_neg h3]
  cases limit <;> rfl

/-- Arms 4/5 when both values are present but the swap is below `-1`
(outside the documented sentinel domain): the bail arm cannot fire. -/
theorem apply_swap_subneg (l s : Int) (p : Props) (hs : s < -1) :
    Memory.apply_swap (some s) (some l) p =
      if l < s then .ok (p.insert "MemorySwapMax" (asU64 (s - l))) else .ok p := by
  have h1 : ¬((some l : Option Int) = some (-1) ∧ (some s : Option Int) = none) := by
    rintro ⟨-, h⟩
    exact Option.noConfusion h
  have h2 : (some s : Option Int) ≠ some (-1) := by
    intro h
    have := Option.some.inj h
    omega
  have h3 : ¬((some s : Option Int) = some 0 ∨
      (((some l : Option Int) = none ∨ (some l : Option Int) = some 0 ∨
        (some l : Option Int) = some (-1)) ∧ optIsPos64 (some s))) := by
    rintro (h | ⟨-, h⟩)
    · have := Option.some.inj h
      omega
    · simp only [optIsPos64, decide_eq_true_eq] at h
      omega
  unfold Memory.apply_swap
  rw [if_neg h1, if_neg h2, if_neg h3]

/-! ### Sink and arithmetic helpers -/

theorem Props.insert_same (p : Props) (k : String) (v : Nat) :
    p.insert k v k = some v := if_pos rfl

theorem Props.insert_ne (p : Props) (k k' : String) (v : Nat) (h : k' ≠ k) :
    p.insert k v k' = p k' := if_neg h

theorem I64MAX_eq : I64MAX = 9223372036854775807 := by norm_num [I64MAX]

theorem I64MIN_eq : I64MIN = -9223372036854775808 := by norm_num [I64MIN]

theorem asU64_eq_toNat (x : Int) (h0 : 0 ≤ x) (h1 : x < 2 ^ 64) :
    asU64 x = x.toNat := by
  unfold asU64
  rw [Int.emod_eq_of_lt h0 h1]

/-- On success, `apply_swap` touches no key other than `"MemorySwapMax"`. -/
theorem apply_swap_sink_other (swap limit : Option Int) (p q : Props) (k : String)
    (hk : k ≠ "MemorySwapMax")
    (h : Memory.apply_swap swap limit p = .ok q) : q k = p k := by
  unfold Memory.apply_swap at h
  split_ifs at h with h1 h2 h3
  · injection h with h
    subst h
    exact Props.insert_ne _ _ _ _ hk
  · injection h with h
    subst h
    exact Props.insert_ne _ _ _ _ hk
  · split at h
    · split_ifs at h
      · injection h with h
        subst h
        exact Props.insert_ne _ _ _ _ hk
      · injection h with h
        subst h
        rfl
    · injection h with h
      subst h
      rfl

/-- The swap step of `Memory::apply` never changes any key other than
`"MemorySwapMax"`, whether it succeeds or bails. -/
theorem applySwapStep_sink_other (mem : LinuxMemory) (p : Props) (k : String)
    (hk : k ≠ "MemorySwapMax") :
    (Memory.applySwapStep mem p).2 k = p k := by
  unfold Memory.applySwapStep
  cases hE : Memory.apply_swap mem.swap mem.limit p with
  | error e => rfl
  | ok q => exact apply_swap_sink_other _ _ _ _ _ hk hE

/-- The limit-and-swap tail of `Memory::apply` never changes `"MemoryLow"`. -/
theorem applyLimitSwap_MemoryLow (mem : LinuxMemory) (p : Props) :
    (Memory.applyLimitSwap mem p).2 "MemoryLow" = p "MemoryLow" := by
  unfold Memory.applyLimitSwap
  cases hL : mem.limit with
  | none => exact applySwapStep_sink_other _ _ _ (by decide)
  | some l =>
      dsimp only
      split_ifs with h
      · rw [applySwapStep_sink_other _ _ _ (by decide)]
        exact Props.insert_ne _ _ _ _ (by decide)
      · rfl

/-! ### Claim theorems -/

/-- C1 counterexample: for the spec `{limit = -1, swap and reservation
absent}`, `Memory::apply` does **not** succeed with `MemorySwapMax = u64::MAX`
and no `MemoryMax`: the `limit` validation block rejects `-1` before the swap
resolution is ever reached. -/
theorem C1_counterexample :
    ¬((Memory.apply ⟨some (-1), none, none⟩ emptyProps).1 = none ∧
      (Memory.apply ⟨some (-1), none, none⟩ emptyProps).2 "MemorySwapMax" = some U64MAX ∧
      (Memory.apply ⟨some (-1), none, none⟩ emptyProps).2 "MemoryMax" = none) := by
  intro h
  exact absurd h.1 (by decide)

/-- C1 (amended): on the spec `{limit = -1, swap and reservation absent}`,
`Memory::apply` fails with the "invalid memory limit value" validation error
and inserts nothing (no `MemorySwapMax`, no `MemoryMax`); only the underlying
swap-resolution step `apply_swap`, taken on its own with `limit = Some(-1)`
and `swap = None`, produces the sink `{MemorySwapMax = u64::MAX}` with no
`MemoryMax` entry. -/
theorem C1_unlimited_limit_rejected_before_swap :
    (Memory.apply ⟨some (-1), none, none⟩ emptyProps).1
        = some (CgError.invalidLimit (-1)) ∧
    (Memory.apply ⟨some (-1), none, none⟩ emptyProps).2 "MemorySwapMax" = none ∧
    (Memory.apply ⟨some (-1), none, none⟩ emptyProps).2 "MemoryMax" = none ∧
    Memory.apply_swap none (some (-1)) emptyProps
        = .ok (emptyProps.insert "MemorySwapMax" U64MAX) ∧
    (emptyProps.insert "MemorySwapMax" U64MAX) "MemorySwapMax" = some U64MAX ∧
    (emptyProps.insert "MemorySwapMax" U64MAX) "MemoryMax" = none := by
  refine ⟨by decide, by decide, by decide, apply_swap_unlimited_limit emptyProps,
    by decide, by decide⟩

/-- C6: whenever `swap = -1` (unlimited), swap resolution succeeds and sets
`MemorySwapMax = u64::MAX`, for every value of the memory limit (absent,
`-1`, `0`, or any integer). -/
theorem C6_unlimited_swap (limit : Option Int) (p : Props) :
    Memory.apply_swap (some (-1)) limit p = .ok (p.insert "MemorySwapMax" U64MAX) :=
  apply_swap_unlimited_swap limit p

/-- C6 witness at `limit = Some 0`. -/
theorem C6_unlimited_swap_witness :
    Memory.apply_swap (some (-1)) (some 0) emptyProps
        = .ok (emptyProps.insert "MemorySwapMax" U64MAX) :=
  C6_unlimited_swap (some 0) emptyProps

/-- C8: when the options carry no memory sub-spec, the trait-level `apply`
returns `Ok` and the sink is returned completely unchanged. -/
theorem C8_absent_subspec_noop (pid : Nat) (p : Props) :
    MemoryController.apply ⟨⟨none⟩⟩ pid p = (none, p) := rfl

/-- C8 witness at the empty sink. -/
theorem C8_absent_subspec_noop_witness :
    MemoryController.apply ⟨⟨none⟩⟩ 0 emptyProps = (none, emptyProps) :=
  C8_absent_subspec_noop 0 emptyProps

/-- C5: for positive limit `L` and positive swap `S`, swap resolution emits
`MemorySwapMax = S − L` when `L < S`, and is a silent no-op (nothing emitted,
no error) when `L ≥ S`, the boundary `L = S` included. -/
theorem C5_positive_swap_delta (l s : Int) (p : Props)
    (hl1 : 1 ≤ l) (hl2 : l ≤ I64MAX) (hs1 : 1 ≤ s) (hs2 : s ≤ I64MAX) :
    (l < s → Memory.apply_swap (some s) (some l) p
        = .ok (p.insert "MemorySwapMax" (s - l).toNat)) ∧
    (s ≤ l → Memory.apply_swap (some s) (some l) p = .ok p) := by
  have hfin := apply_swap_finite l s p hl1 (by omega) (by omega)
  constructor
  · intro hlt
    rw [hfin, if_pos hlt, asU64_eq_toNat (s - l) (by omega)]
    rw [I64MAX_eq] at hl2 hs2
    omega
  · intro hle
    rw [hfin, if_neg (by omega)]

/-- C5 witness: `limit = 100` with `swap = 150` (delta `50` emitted) and with
`swap = 50` / `swap = 100` (no-op, boundary included). -/
theorem C5_positive_swap_delta_witness :
    Memory.apply_swap (some 150) (some 100) emptyProps
        = .ok (emptyProps.insert "MemorySwapMax" ((150 : Int) - 100).toNat) ∧
    Memory.apply_swap (some 50) (some 100) emptyProps = .ok emptyProps ∧
    Memory.apply_swap (some 100) (some 100) emptyProps = .ok emptyProps := by
  have hI : (100 : Int) ≤ I64MAX ∧ (150 : Int) ≤ I64MAX ∧ (50 : Int) ≤ I64MAX := by
    rw [I64MAX_eq]
    omega
  refine ⟨?_, ?_, ?_⟩
  · exact (C5_positive_swap_delta 100 150 emptyProps (by omega) hI.1 (by omega)
      hI.2.1).1 (by omega)
  · exact (C5_positive_swap_delta 100 50 emptyProps (by omega) hI.1 (by omega)
      hI.2.2).2 (by omega)
  · exact (C5_positive_swap_delta 100 100 emptyProps (by omega) hI.1 (by omega)
      hI.1).2 (by omega)

/-- C10: swap values strictly below `-1` are outside the documented sentinel
domain yet are accepted without a ValidationError: with the limit absent, or
any limit `l ≥ s`, swap resolution is a silent no-op; with a limit `l < s`
(both negative) it emits `MemorySwapMax = s − l`. -/
theorem C10_subneg_swap_accepted (s : Int) (p : Props) (hs : s < -1) :
    Memory.apply_swap (some s) none p = .ok p ∧
    (∀ l, s ≤ l → Memory.apply_swap (some s) (some l) p = .ok p) ∧
    (∀ l, I64MIN ≤ l → l < s →
      Memory.apply_swap (some s) (some l) p
        = .ok (p.insert "MemorySwapMax" (s - l).toNat)) := by
  refine ⟨?_, ?_, ?_⟩
  · have h1 : ¬((none : Option Int) = some (-1) ∧ (some s : Option Int) = none) := by
      rintro ⟨-, h⟩
      exact Option.noConfusion h
    have h2 : (some s : Option Int) ≠ some (-1) := by
      intro h
      have := Option.some.inj h
      omega
    have h3 : ¬((some s : Option Int) = some 0 ∨
        (((none : Option Int) = none ∨ (none : Option Int) = some 0 ∨
          (none : Option Int) = some (-1)) ∧ optIsPos64 (some s))) := by
      rintro (h | ⟨-, h⟩)
      · have := Option.some.inj h
        omega
      · simp only [optIsPos64, decide_eq_true_eq] at h
        omega
    unfold Memory.apply_swap
    rw [if_neg h1, if_neg h2, if_neg h3]
  · intro l hle
    rw [apply_swap_subneg l s p hs, if_neg (by omega)]
  · intro l hmin hlt
    rw [apply_swap_subneg l s p hs, if_pos hlt, asU64_eq_toNat (s - l) (by omega)]
    rw [I64MIN_eq] at hmin
    omega

/-- C10 witness at `s = -3`: no-op with the limit absent and with `l = -2`,
delta `4` with `l = -7`. -/
theorem C10_subneg_swap_accepted_witness :
    Memory.apply_swap (some (-3)) none emptyProps = .ok emptyProps ∧
    Memory.apply_swap (some (-3)) (some (-2)) emptyProps = .ok emptyProps ∧
    Memory.apply_swap (some (-3)) (some (-7)) emptyProps
        = .ok (emptyProps.insert "MemorySwapMax" ((-3 : Int) - (-7)).toNat) := by
  have h := C10_subneg_swap_accepted (-3) emptyProps (by omega)
  refine ⟨h.1, h.2.1 (-2) (by omega), h.2.2 (-7) ?_ (by omega)⟩
  rw [I64MIN_eq]
  omega

/-- The documented domain of a memory field: absent, `-1` (unlimited), `0`,
or positive. -/
def inSentinelDomain (x : Option Int) : Prop :=
  x = none ∨ x = some (-1) ∨ x = some 0 ∨ ∃ k, x = some k ∧ 1 ≤ k ∧ k ≤ I64MAX

/-- C4: over the documented domain for `limit` and `swap`, swap resolution
fails if and only if `swap = 0` (for any limit) or `swap` is positive while
`limit` is absent, `0` or `-1`; and every such error is the
`swapNotCalculable` bail carrying the offending swap value and the limit
value, whose rendered message interpolates both. -/
theorem C4_swap_error_iff (limit swap : Option Int) (p : Props)
    (hl : inSentinelDomain limit) (hs : inSentinelDomain swap) :
    ((∃ e, Memory.apply_swap swap limit p = .error e) ↔
      (swap = some 0 ∨
        ((limit = none ∨ limit = some 0 ∨ limit = some (-1)) ∧
          ∃ s, swap = some s ∧ 1 ≤ s))) ∧
    (∀ e, Memory.apply_swap swap limit p = .error e →
      ∃ s, swap = some s ∧ e = CgError.swapNotCalculable s limit ∧
        e.message =
          "cgroup v2 swap value cannot be calculated from swap of " ++ toString s
            ++ " and limit of " ++ limitRender limit) := by
  rcases hs with hs | hs | hs | ⟨s, hs, hs1, hs2⟩
  -- swap absent: no error possible
  · subst hs
    have hok : ∃ q, Memory.apply_swap none limit p = .ok q := by
      by_cases hlim : limit = some (-1)
      · subst hlim
        exact ⟨_, apply_swap_unlimited_limit p⟩
      · exact ⟨p, apply_swap_absent_swap limit p hlim⟩
    obtain ⟨q, hq⟩ := hok
    constructor
    · constructor
      · rintro ⟨e, he⟩
        rw [hq] at he
        exact Except.noConfusion he
      · rintro (h | ⟨-, s, h, -⟩) <;> exact Option.noConfusion h
    · intro e he
      rw [hq] at he
      exact Except.noConfusion he
  -- swap = -1: no error possible
  · subst hs
    have hq := apply_swap_unlimited_swap limit p
    constructor
    · constructor
      · rintro ⟨e, he⟩
        rw [hq] at he
        exact Except.noConfusion he
      · rintro (h | ⟨-, s, h, hs1⟩)
        · have := Option.some.inj h
          omega
        · have := Option.some.inj h
          omega
    · intro e he
      rw [hq] at he
      exact Except.noConfusion he
  -- swap = 0: always the bail
  · subst hs
    have hq := apply_swap_zero_swap limit p
    constructor
    · constructor
      · intro _
        exact Or.inl rfl
      · intro _
        exact ⟨_, hq⟩
    · intro e he
      rw [hq] at he
      injection he with he
      exact ⟨0, rfl, he.symm ▸ rfl, he.symm ▸ rfl⟩
  -- swap positive
  · subst hs
    rcases hl with hl | hl | hl | ⟨l, hl, hl1, hl2⟩
    -- limit absent / 0 / -1: always the bail
    · subst hl
      have hq := apply_swap_pos_swap_bad_limit none s p (Or.inl rfl) hs1 hs2
      refine ⟨⟨fun _ => Or.inr ⟨Or.inl rfl, s, rfl, hs1⟩, fun _ => ⟨_, hq⟩⟩, ?_⟩
      intro e he
      rw [hq] at he
      injection he with he
      exact ⟨s, rfl, he.symm ▸ rfl, he.symm ▸ rfl⟩
    · subst hl
      have hq := apply_swap_pos_swap_bad_limit (some (-1)) s p (Or.inr (Or.inr rfl)) hs1 hs2
      refine ⟨⟨fun _ => Or.inr ⟨Or.inr (Or.inr rfl), s, rfl, hs1⟩, fun _ => ⟨_, hq⟩⟩, ?_⟩
      intro e he
      rw [hq] at he
      injection he with he
      exact ⟨s, rfl, he.symm ▸ rfl, he.symm ▸ rfl⟩
    · subst hl
      have hq := apply_swap_pos_swap_bad_limit (some 0) s p (Or.inr (Or.inl rfl)) hs1 hs2
      refine ⟨⟨fun _ => Or.inr ⟨Or.inr (Or.inl rfl), s, rfl, hs1⟩, fun _ => ⟨_, hq⟩⟩, ?_⟩
      intro e he
      rw [hq] at he
      injection he with he
      exact ⟨s, rfl, he.symm ▸ rfl, he.symm ▸ rfl⟩
    -- limit positive: never an error
    · subst hl
      have hq := apply_swap_finite l s p hl1 (by omega) (by omega)
      have hok : ∀ e, Memory.apply_swap (some s) (some l) p ≠ .error e := by
        intro e he
        rw [hq] at he
        split_ifs at he
      constructor
      · constructor
        · rintro ⟨e, he⟩
          exact absurd he (hok e)
        · rintro (h | ⟨hbad, -⟩)
          · have := Option.some.inj h
            omega
          · rcases hbad with h | h | h
            · exact Option.noConfusion h
            · have := Option.some.inj h
              omega
            · have := Option.some.inj h
              omega
      · intro e he
        exact absurd he (hok e)

/-- C4 witness (spec scenario D): `limit = 100`, `swap = 0` fails with the
bail carrying swap `0` and limit `100`, whose message names both. -/
theorem C4_swap_error_iff_witness :
    Memory.apply_swap (some 0) (some 100) emptyProps
        = .error (CgError.swapNotCalculable 0 (some 100)) ∧
    (CgError.swapNotCalculable 0 (some 100)).message
        = "cgroup v2 swap value cannot be calculated from swap of 0 and limit of 100" := by
  have hdl : inSentinelDomain (some 100) :=
    Or.inr (Or.inr (Or.inr ⟨100, rfl, by omega, by rw [I64MAX_eq]; omega⟩))
  have hds : inSentinelDomain (some 0) := Or.inr (Or.inr (Or.inl rfl))
  have h := C4_swap_error_iff (some 100) (some 0) emptyProps hdl hds
  obtain ⟨e, he⟩ := h.1.mpr (Or.inl rfl)
  obtain ⟨s, hs, hes, -⟩ := h.2 e he
  obtain rfl : (0 : Int) = s := Option.some.inj hs
  subst hes
  exact ⟨he, by decide⟩

/-! ### Equation lemmas for `Memory.apply` -/

theorem apply_res_reject (mem : LinuxMemory) (p : Props) (r : Int)
    (hres : mem.reservation = some r) (hr : ¬(1 ≤ r ∧ r ≤ I64MAX)) :
    Memory.apply mem p = (some (CgError.invalidReservation r), p) := by
  unfold Memory.apply
  rw [hres]
  dsimp only
  rw [if_neg hr]

theorem apply_res_ok (mem : LinuxMemory) (p : Props) (r : Int)
    (hres : mem.reservation = some r) (hr : 1 ≤ r ∧ r ≤ I64MAX) :
    Memory.apply mem p = Memory.applyLimitSwap mem (p.insert "MemoryLow" (asU64 r)) := by
  unfold Memory.apply
  rw [hres]
  dsimp only
  rw [if_pos hr]

theorem apply_res_none (mem : LinuxMemory) (p : Props)
    (hres : mem.reservation = none) :
    Memory.apply mem p = Memory.applyLimitSwap mem p := by
  unfold Memory.apply
  rw [hres]

theorem applyLimitSwap_reject (mem : LinuxMemory) (p : Props) (l : Int)
    (hlim : mem.limit = some l) (hl : ¬(1 ≤ l ∧ l ≤ I64MAX)) :
    Memory.applyLimitSwap mem p = (some (CgError.invalidLimit l), p) := by
  unfold Memory.applyLimitSwap
  rw [hlim]
  dsimp only
  rw [if_neg hl]

theorem applyLimitSwap_pos (mem : LinuxMemory) (p : Props) (l : Int)
    (hlim : mem.limit = some l) (hl : 1 ≤ l ∧ l ≤ I64MAX) :
    Memory.applyLimitSwap mem p
      = Memory.applySwapStep mem (p.insert "MemoryMax" (asU64 l)) := by
  unfold Memory.applyLimitSwap
  rw [hlim]
  dsimp only
  rw [if_pos hl]

theorem applyLimitSwap_no_limit (mem : LinuxMemory) (p : Props)
    (hlim : mem.limit = none) :
    Memory.applyLimitSwap mem p = Memory.applySwapStep mem p := by
  unfold Memory.applyLimitSwap
  rw [hlim]

theorem applySwapStep_of_ok (mem : LinuxMemory) (p q : Props)
    (h : Memory.apply_swap mem.swap mem.limit p = .ok q) :
    Memory.applySwapStep mem p = (none, q) := by
  unfold Memory.applySwapStep
  rw [h]

theorem applySwapStep_of_error (mem : LinuxMemory) (p : Props) (e : CgError)
    (h : Memory.apply_swap mem.swap mem.limit p = .error e) :
    Memory.applySwapStep mem p = (some (CgError.context "could not apply swap" e), p) := by
  unfold Memory.applySwapStep
  rw [h]

theorem lt_two_pow_64_of_le_I64MAX (x : Int) (h : x ≤ I64MAX) : x < 2 ^ 64 := by
  rw [I64MAX_eq] at h
  have hp : (2 : Int) ^ 64 = 18446744073709551616 := by norm_num
  omega

/-- C2: whenever a present `limit` or `reservation` value is non-positive
(zero or any negative value, `-1` included), `Memory::apply` fails with a
validation `bail!` and the corresponding property (`MemoryLow` for the
reservation, `MemoryMax` for the limit) keeps its prior sink value — it is
never inserted. -/
theorem C2_nonpositive_rejected (mem : LinuxMemory) (p : Props)
    (h : (∃ v, mem.reservation = some v ∧ v ≤ 0) ∨
         (∃ v, mem.limit = some v ∧ v ≤ 0)) :
    (∃ e, (Memory.apply mem p).1 = some e ∧ e.isValidation = true) ∧
    (∀ v, mem.reservation = some v → v ≤ 0 →
        (Memory.apply mem p).2 "MemoryLow" = p "MemoryLow") ∧
    (∀ v, mem.limit = some v → v ≤ 0 →
        (Memory.apply mem p).2 "MemoryMax" = p "MemoryMax") := by
  by_cases hres : ∃ v, mem.reservation = some v ∧ v ≤ 0
  · obtain ⟨v, hv, hv0⟩ := hres
    have happ := apply_res_reject mem p v hv (by rintro ⟨h1, -⟩; omega)
    rw [happ]
    exact ⟨⟨CgError.invalidReservation v, rfl, rfl⟩,
      fun _ _ _ => rfl, fun _ _ _ => rfl⟩
  · rcases h with hbad | ⟨v, hv, hv0⟩
    · exact absurd hbad hres
    · have hfail : ∀ q : Props,
          Memory.applyLimitSwap mem q = (some (CgError.invalidLimit v), q) :=
        fun q => applyLimitSwap_reject mem q v hv (by rintro ⟨h1, -⟩; omega)
      cases hR : mem.reservation with
      | none =>
          have happ := (apply_res_none mem p hR).trans (hfail p)
          rw [happ]
          exact ⟨⟨CgError.invalidLimit v, rfl, rfl⟩,
            fun r hr _ => Option.noConfusion hr,
            fun _ _ _ => rfl⟩
      | some r =>
          by_cases hr : 1 ≤ r ∧ r ≤ I64MAX
          · have happ := (apply_res_ok mem p r hR hr).trans
              (hfail (p.insert "MemoryLow" (asU64 r)))
            rw [happ]
            refine ⟨⟨CgError.invalidLimit v, rfl, rfl⟩, ?_, ?_⟩
            · intro r' hr' hr'0
              have := Option.some.inj hr'
              omega
            · intro v' _ _
              exact Props.insert_ne p "MemoryLow" "MemoryMax" (asU64 r) (by decide)
          · have happ := apply_res_reject mem p r hR hr
            rw [happ]
            exact ⟨⟨CgError.invalidReservation r, rfl, rfl⟩,
              fun _ _ _ => rfl, fun _ _ _ => rfl⟩

/-- C2 witness: `{limit = 0, reservation = 7}` fails validation and inserts
no `MemoryMax`; `{reservation = -1}` fails validation and inserts no
`MemoryLow`. -/
theorem C2_nonpositive_rejected_witness :
    (∃ e, (Memory.apply ⟨some 0, some 7, none⟩ emptyProps).1 = some e ∧
        e.isValidation = true) ∧
    (Memory.apply ⟨some 0, some 7, none⟩ emptyProps).2 "MemoryMax" = none ∧
    (∃ e, (Memory.apply ⟨none, some (-1), none⟩ emptyProps).1 = some e ∧
        e.isValidation = true) ∧
    (Memory.apply ⟨none, some (-1), none⟩ emptyProps).2 "MemoryLow" = none := by
  have h1 := C2_nonpositive_rejected ⟨some 0, some 7, none⟩ emptyProps
    (Or.inr ⟨0, rfl, by omega⟩)
  have h2 := C2_nonpositive_rejected ⟨none, some (-1), none⟩ emptyProps
    (Or.inl ⟨-1, rfl, by omega⟩)
  exact ⟨h1.1, h1.2.2 0 rfl (by omega), h2.1, h2.2.1 (-1) rfl (by omega)⟩

/-- C3: every positive reservation `r` ends up in the sink as
`MemoryLow = r`, and every positive limit `l` (with the reservation valid or
absent, so the earlier block does not bail first) ends up as
`MemoryMax = l`; the stored `u64` equals the input value unchanged. -/
theorem C3_positive_passthrough (mem : LinuxMemory) (p : Props) :
    (∀ r, mem.reservation = some r → 1 ≤ r → r ≤ I64MAX →
        (Memory.apply mem p).2 "MemoryLow" = some r.toNat ∧ (r.toNat : Int) = r) ∧
    (∀ l, mem.limit = some l → 1 ≤ l → l ≤ I64MAX →
        (mem.reservation = none ∨
          ∃ r, mem.reservation = some r ∧ 1 ≤ r ∧ r ≤ I64MAX) →
        (Memory.apply mem p).2 "MemoryMax" = some l.toNat ∧ (l.toNat : Int) = l) := by
  constructor
  · intro r hres h1 h2
    refine ⟨?_, Int.toNat_of_nonneg (by omega)⟩
    rw [apply_res_ok mem p r hres ⟨h1, h2⟩, applyLimitSwap_MemoryLow,
      Props.insert_same, asU64_eq_toNat r (by omega) (lt_two_pow_64_of_le_I64MAX r h2)]
  · intro l hlim h1 h2 hres
    refine ⟨?_, Int.toNat_of_nonneg (by omega)⟩
    have hmax : ∀ q : Props,
        (Memory.applyLimitSwap mem q).2 "MemoryMax" = some l.toNat := by
      intro q
      rw [applyLimitSwap_pos mem q l hlim ⟨h1, h2⟩,
        applySwapStep_sink_other _ _ _ (by decide), Props.insert_same,
        asU64_eq_toNat l (by omega) (lt_two_pow_64_of_le_I64MAX l h2)]
    rcases hres with hres | ⟨r, hres, hr1, hr2⟩
    · rw [apply_res_none mem p hres]
      exact hmax p
    · rw [apply_res_ok mem p r hres ⟨hr1, hr2⟩]
      exact hmax _

/-- C3 witness: `{limit = 5, reservation = 7}` stores `MemoryLow = 7` and
`MemoryMax = 5`. -/
theorem C3_positive_passthrough_witness :
    (Memory.apply ⟨some 5, some 7, none⟩ emptyProps).2 "MemoryLow" = some 7 ∧
    (Memory.apply ⟨some 5, some 7, none⟩ emptyProps).2 "MemoryMax" = some 5 := by
  have hI : (5 : Int) ≤ I64MAX ∧ (7 : Int) ≤ I64MAX := by
    rw [I64MAX_eq]
    omega
  have h := C3_positive_passthrough ⟨some 5, some 7, none⟩ emptyProps
  exact ⟨(h.1 7 rfl (by omega) hI.2).1,
    (h.2 5 rfl (by omega) hI.1 (Or.inr ⟨7, rfl, by omega, hI.2⟩)).1⟩

/-- C9: with a positive reservation and a non-positive limit, `Memory::apply`
returns the invalid-limit error, yet the `MemoryLow` entry inserted for the
reservation before the bail remains in the sink — there is no rollback of
earlier insertions on error. -/
theorem C9_no_rollback_on_error (r l : Int) (sw : Option Int) (p : Props)
    (hr1 : 1 ≤ r) (hr2 : r ≤ I64MAX) (hl : l ≤ 0) :
    (Memory.apply ⟨some l, some r, sw⟩ p).1 = some (CgError.invalidLimit l) ∧
    (Memory.apply ⟨some l, some r, sw⟩ p).2 "MemoryLow" = some r.toNat := by
  have happ : Memory.apply ⟨some l, some r, sw⟩ p
      = (some (CgError.invalidLimit l), p.insert "MemoryLow" (asU64 r)) := by
    rw [apply_res_ok _ p r rfl ⟨hr1, hr2⟩,
      applyLimitSwap_reject _ _ l rfl (by rintro ⟨h1, -⟩; omega)]
  rw [happ]
  refine ⟨rfl, ?_⟩
  show (p.insert "MemoryLow" (asU64 r)) "MemoryLow" = some r.toNat
  rw [Props.insert_same,
    asU64_eq_toNat r (by omega) (lt_two_pow_64_of_le_I64MAX r hr2)]

/-- C9 witness: `{limit = 0, reservation = 7}` errors while `MemoryLow = 7`
stays in the sink. -/
theorem C9_no_rollback_on_error_witness :
    (Memory.apply ⟨some 0, some 7, none⟩ emptyProps).1
        = some (CgError.invalidLimit 0) ∧
    (Memory.apply ⟨some 0, some 7, none⟩ emptyProps).2 "MemoryLow" = some 7 := by
  have h := C9_no_rollback_on_error 7 0 none emptyProps (by omega)
    (by rw [I64MAX_eq]; omega) (by omega)
  exact h

/-- C7 (spec scenario A): for the spec `{limit = 100_000_000}` with swap and
reservation absent, `Memory::apply` succeeds and the sink holds exactly one
entry, `MemoryMax = 100000000`. -/
theorem C7_scenario_A :
    (Memory.apply ⟨some 100000000, none, none⟩ emptyProps).1 = none ∧
    (Memory.apply ⟨some 100000000, none, none⟩ emptyProps).2 "MemoryMax"
        = some 100000000 ∧
    ∀ k, k ≠ "MemoryMax" →
      (Memory.apply ⟨some 100000000, none, none⟩ emptyProps).2 k = none := by
  have hQ := apply_swap_absent_swap (some 100000000)
    (emptyProps.insert "MemoryMax" (asU64 100000000)) (by decide)
  have happ : Memory.apply ⟨some 100000000, none, none⟩ emptyProps
      = (none, emptyProps.insert "MemoryMax" (asU64 100000000)) := by
    rw [apply_res_none _ _ rfl,
      applyLimitSwap_pos _ _ 100000000 rfl ⟨by omega, by rw [I64MAX_eq]; omega⟩,
      applySwapStep_of_ok _ _ _ hQ]
  rw [happ]
  refine ⟨rfl, by decide, ?_⟩
  intro k hk
  exact (Props.insert_ne emptyProps "MemoryMax" k (asU64 100000000) hk).trans rfl

/-- C7 witness: in particular, no `MemorySwapMax` and no `MemoryLow` entry. -/
theorem C7_scenario_A_witness :
    (Memory.apply ⟨some 100000000, none, none⟩ emptyProps).1 = none ∧
    (Memory.apply ⟨some 100000000, none, none⟩ emptyProps).2 "MemorySwapMax"
        = none ∧
    (Memory.apply ⟨some 100000000, none, none⟩ emptyProps).2 "MemoryLow"
        = none :=
  ⟨C7_scenario_A.1, C7_scenario_A.2.2 "MemorySwapMax" (by decide),
    C7_scenario_A.2.2 "MemoryLow" (by decide)⟩
